import Mathlib

/-!
# FoodFinder: aggregation and ranking pipeline, shallow embedding

A shallow embedding of the restaurant-discovery aggregator's core pipeline:
the unified restaurant entity, the information-completeness score, the
aggregator's deduplication and multi-tool search, the ranking engine's
weighted scoring, and the two provider adapters' result-parsing functions
(`PerplexitySearchTool.parseRestaurant`, `YelpSearchTool.parseBusiness`).

JavaScript numbers are modelled as exact rationals (`ℚ`); JavaScript
truthiness on optional strings (`undefined` and `""` are falsy) is made
explicit; the wall-clock timestamps taken by the original code
(`Date.now()`, `new Date()`) are threaded in as explicit parameters so
that every operation is a pure function of its inputs.
-/

namespace FoodFinder

/-- `PriceRange` enum from `src/types/restaurant.ts`. -/
inductive PriceRange where
  | BUDGET
  | MODERATE
  | EXPENSIVE
  | VERY_EXPENSIVE
deriving DecidableEq, Repr

/-- `DataSource` enum (the repository also tags Perplexity-sourced records). -/
inductive DataSource where
  | GOOGLE
  | YELP
  | PERPLEXITY
  | COMBINED
deriving DecidableEq, Repr

/-- `FeatureCategory` enum from `src/types/restaurant.ts`. -/
inductive FeatureCategory where
  | DINING
  | ACCESSIBILITY
  | PAYMENT
  | SPECIAL
  | OTHER
deriving DecidableEq, Repr

/-- `Coordinates` interface. -/
structure Coordinates where
  latitude : ℚ
  longitude : ℚ
deriving DecidableEq, Repr

/-- `DayHours` interface (`open`/`close` are renamed: `open` is reserved). -/
structure DayHours where
  openTime : String
  closeTime : String
  isClosed : Bool
deriving DecidableEq, Repr

/-- `BusinessHours` interface. -/
structure BusinessHours where
  monday : Option DayHours
  tuesday : Option DayHours
  wednesday : Option DayHours
  thursday : Option DayHours
  friday : Option DayHours
  saturday : Option DayHours
  sunday : Option DayHours
deriving DecidableEq, Repr

/-- A feature's `value: string | boolean`. -/
inductive FeatureValue where
  | asString (s : String)
  | asBool (b : Bool)
deriving DecidableEq, Repr

/-- `RestaurantFeature` interface. -/
structure RestaurantFeature where
  name : String
  value : FeatureValue
  category : FeatureCategory
deriving DecidableEq, Repr

/-- The Unified Restaurant Entity (`Restaurant` interface).  Optional
fields are `Option`; `lastUpdated` is the timestamp supplied at parse
time. -/
structure Restaurant where
  id : String
  name : String
  address : String
  city : String
  state : String
  zipCode : String
  phone : Option String
  website : Option String
  cuisine : List String
  priceRange : PriceRange
  rating : ℚ
  reviewCount : ℚ
  coordinates : Option Coordinates
  hours : Option BusinessHours
  features : Option (List RestaurantFeature)
  images : Option (List String)
  source : DataSource
  lastUpdated : ℕ
deriving DecidableEq, Repr

/-- `RestaurantSearchParams` interface. -/
structure RestaurantSearchParams where
  query : String
  location : String
  radius : Option ℚ
  cuisine : Option (List String)
  priceRange : Option (List PriceRange)
  rating : Option ℚ
  openNow : Option Bool
  maxResults : Option ℕ
deriving DecidableEq, Repr

/-- `RestaurantSearchResult` interface; `searchTime` in milliseconds. -/
structure RestaurantSearchResult where
  restaurants : List Restaurant
  totalResults : ℕ
  searchParams : RestaurantSearchParams
  searchTime : ℕ
deriving Repr

/-- `RankingFactor` interface. -/
structure RankingFactor where
  name : String
  weight : ℚ
  score : ℚ
  description : String
deriving Repr

/-- `RestaurantRanking` interface. -/
structure RestaurantRanking where
  restaurant : Restaurant
  score : ℚ
  factors : List RankingFactor
deriving Repr

/-- `RankingCriteria` interface (accepted by `rankRestaurants` but never
read by the scoring code). -/
structure RankingCriteria where
  minRating : Option ℚ
  maxPrice : Option String
  preferredCuisines : Option (List String)
  mustHaveFeatures : Option (List String)
deriving Repr

/-- The empty criteria object `{}`, the default argument of
`rankRestaurants`. -/
def noCriteria : RankingCriteria := ⟨none, none, none, none⟩

/-- JavaScript truthiness of an optional string: `undefined` and the
empty string are falsy. -/
def optStrTruthy : Option String → Bool
  | none => false
  | some s => !(s == "")

/-- Truthiness of an optional list combined with a `length > 0` test, as
in `restaurant.features && restaurant.features.length > 0`. -/
def optListNonempty {α : Type} : Option (List α) → Bool
  | none => false
  | some l => decide (0 < l.length)

/-- `ToolManager.getRestaurantInfoScore`: one point for each of the six
present / non-empty fields. -/
def getRestaurantInfoScore (restaurant : Restaurant) : ℕ :=
  (if optStrTruthy restaurant.phone then 1 else 0) +
  (if optStrTruthy restaurant.website then 1 else 0) +
  (if restaurant.coordinates.isSome then 1 else 0) +
  (if restaurant.hours.isSome then 1 else 0) +
  (if optListNonempty restaurant.features then 1 else 0) +
  (if optListNonempty restaurant.images then 1 else 0)

set_option linter.unusedVariables false in
/-- `ToolManager.calculateRestaurantRanking`: the five-factor weighted
score together with the factor breakdown.  The `criteria` argument is
accepted, as in the source, and never read. -/
def calculateRestaurantRanking (restaurant : Restaurant)
    (criteria : RankingCriteria) : RestaurantRanking :=
  let ratingWeight : ℚ := 0.3
  let ratingScore : ℚ := restaurant.rating / 5
  let reviewWeight : ℚ := 0.2
  let reviewScore : ℚ := min (restaurant.reviewCount / 100) 1
  let priceWeight : ℚ := 0.15
  let priceScore : ℚ :=
    match restaurant.priceRange with
    | PriceRange.BUDGET => 1.0
    | PriceRange.MODERATE => 0.8
    | PriceRange.EXPENSIVE => 0.6
    | PriceRange.VERY_EXPENSIVE => 0.4
  let infoWeight : ℚ := 0.2
  let infoScore : ℚ := (getRestaurantInfoScore restaurant : ℚ) / 6
  let sourceWeight : ℚ := 0.15
  let sourceScore : ℚ := if restaurant.source = DataSource.YELP then 1.0 else 0.8
  { restaurant := restaurant
    score := ratingScore * ratingWeight + reviewScore * reviewWeight +
      priceScore * priceWeight + infoScore * infoWeight + sourceScore * sourceWeight
    factors := [
      { name := "Rating", weight := ratingWeight, score := ratingScore,
        description := "Rating: " ++ toString restaurant.rating ++ "/5" },
      { name := "Review Count", weight := reviewWeight, score := reviewScore,
        description := toString restaurant.reviewCount ++ " reviews" },
      { name := "Price Range", weight := priceWeight, score := priceScore,
        description := "Price: " ++ toString (repr restaurant.priceRange) },
      { name := "Information Completeness", weight := infoWeight, score := infoScore,
        description := "Data quality score" },
      { name := "Data Source", weight := sourceWeight, score := sourceScore,
        description := "Source: " ++ toString (repr restaurant.source) }
    ] }

/-- The comparator `(a, b) => b.score - a.score` of
`rankRestaurants`, as the Boolean "may come before" relation it induces
on a correctly sorted output. -/
def rankingLE (a b : RestaurantRanking) : Bool :=
  decide (b.score ≤ a.score)

/-- `ToolManager.rankRestaurants`: score every restaurant, then sort
descending by score (JavaScript `Array.prototype.sort` is a stable sort,
modelled by `List.mergeSort`). -/
def rankRestaurants (restaurants : List Restaurant)
    (criteria : RankingCriteria) : List RestaurantRanking :=
  let rankings := restaurants.map (fun r => calculateRestaurantRanking r criteria)
  rankings.mergeSort rankingLE

/-- `String.prototype.toLowerCase`, as a character-wise map (this is
what `String.toLower` computes, stated so that the kernel can evaluate
it on literals). -/
def strToLower (s : String) : String :=
  String.mk (s.toList.map Char.toLower)

/-- The deduplication key
`` `${restaurant.name.toLowerCase()}_${restaurant.address.toLowerCase()}` ``
used by `combineAndDeduplicateResults`. -/
def restaurantKey (restaurant : Restaurant) : String :=
  strToLower restaurant.name ++ "_" ++ strToLower restaurant.address

/-- One iteration of the inner loop of
`ToolManager.combineAndDeduplicateResults`, acting on the insertion-order
association list that models the JavaScript `Map`: a fresh key is
appended; on a collision the stored record is replaced (in place) exactly
when the new record's information score is strictly higher. -/
def dedupStep (m : List (String × Restaurant)) (restaurant : Restaurant) :
    List (String × Restaurant) :=
  match m.find? (fun p => p.1 == restaurantKey restaurant) with
  | none => m ++ [(restaurantKey restaurant, restaurant)]
  | some existing =>
    if getRestaurantInfoScore existing.2 < getRestaurantInfoScore restaurant then
      m.map (fun q => if q.1 == restaurantKey restaurant
        then (restaurantKey restaurant, restaurant) else q)
    else m

/-- `ToolManager.combineAndDeduplicateResults`: fold every restaurant of
every result into the map, then read the values back in insertion
order. -/
def combineAndDeduplicateResults (results : List RestaurantSearchResult) :
    List Restaurant :=
  (results.foldl (fun m result => result.restaurants.foldl dedupStep m) []).map Prod.snd

/-- Errors surfaced by the tool manager: the unknown-provider error
thrown by `searchWithTool` itself, or a failure propagated from an
adapter call. -/
inductive SearchError where
  | unknownProvider (toolName : String) (available : List String)
  | providerFailure (message : String)
deriving DecidableEq, Repr

/-- The `SearchTool` capability: an adapter's (fallible) search call. -/
def SearchAdapter : Type :=
  RestaurantSearchParams → Except String RestaurantSearchResult

/-- `ToolManager`: the name → adapter registry, as an insertion-order
association list. -/
structure ToolManager where
  tools : List (String × SearchAdapter)

/-- `ToolManager.getAvailableTools`. -/
def getAvailableTools (tm : ToolManager) : List String :=
  tm.tools.map Prod.fst

/-- `ToolManager.searchWithTool`: throw the unknown-provider error when
the name is not registered, otherwise delegate to the adapter (whose own
failures propagate as `providerFailure`). -/
def searchWithTool (tm : ToolManager) (toolName : String)
    (params : RestaurantSearchParams) : Except SearchError RestaurantSearchResult :=
  match tm.tools.find? (fun p => p.1 == toolName) with
  | none => Except.error (SearchError.unknownProvider toolName (getAvailableTools tm))
  | some p => (p.2 params).mapError SearchError.providerFailure

/-- The per-tool loop of `ToolManager.searchWithMultipleTools`: call
each named tool in order, keeping the successful results and swallowing
(logging only) the failures. -/
def collectToolResults (tm : ToolManager) (params : RestaurantSearchParams)
    (toolNames : List String) : List RestaurantSearchResult :=
  toolNames.foldl (fun acc toolName =>
    match searchWithTool tm toolName params with
    | Except.ok result => acc ++ [result]
    | Except.error _ => acc) []

/-- `ToolManager.searchWithMultipleTools`: call each named tool in order,
keeping the successes and swallowing (logging only) the failures, then
combine and deduplicate.  `elapsed` is the `Date.now() - startTime`
wall-clock measurement, supplied as an input of the pure model. -/
def searchWithMultipleTools (tm : ToolManager) (toolNames : List String)
    (params : RestaurantSearchParams) (elapsed : ℕ) : RestaurantSearchResult :=
  let allResults := collectToolResults tm params toolNames
  let combinedRestaurants := combineAndDeduplicateResults allResults
  { restaurants := combinedRestaurants
    totalResults := combinedRestaurants.length
    searchParams := params
    searchTime := elapsed }

/-! ## Provider adapters' parsing

`PerplexitySearchTool.parseRestaurant` and `YelpSearchTool.parseBusiness`
convert one raw provider record into a Unified Restaurant Entity. -/

/-- The Base64 alphabet used by `Buffer.from(...).toString('base64')`. -/
def base64Table : List Char :=
  "ABCDEFGHIJKLMNOPQRSTUVWXYZabcdefghijklmnopqrstuvwxyz0123456789+/".toList

/-- One Base64 digit. -/
def base64Digit (n : ℕ) : Char :=
  base64Table.getD n 'A'

/-- Base64-encode a byte list, three bytes to four characters, with
`=` padding. -/
def base64Chunks : List ℕ → List Char
  | [] => []
  | [b1] =>
    [base64Digit (b1 / 4), base64Digit (b1 % 4 * 16), '=', '=']
  | [b1, b2] =>
    [base64Digit (b1 / 4), base64Digit (b1 % 4 * 16 + b2 / 16),
     base64Digit (b2 % 16 * 4), '=']
  | b1 :: b2 :: b3 :: rest =>
    base64Digit (b1 / 4) :: base64Digit (b1 % 4 * 16 + b2 / 16) ::
      base64Digit (b2 % 16 * 4 + b3 / 64) :: base64Digit (b3 % 64) ::
      base64Chunks rest

/-- `Buffer.from(s).toString('base64')`: Base64 over the UTF-8 bytes. -/
def base64Encode (s : String) : String :=
  String.mk (base64Chunks (s.toUTF8.toList.map (fun b => b.toNat)))

/-- `.substring(0, 8)` of the Base64 encoding, as used by both id
generators. -/
def base64Hash8 (s : String) : String :=
  String.mk ((base64Encode s).toList.take 8)

/-- `PerplexitySearchTool.generateRestaurantId`. -/
def perplexityGenerateRestaurantId (name address : String) : String :=
  "perplexity_" ++ base64Hash8 name ++ "_" ++ base64Hash8 address

/-- `YelpSearchTool.generateRestaurantId`. -/
def yelpGenerateRestaurantId (yelpId name : String) : String :=
  "yelp_" ++ base64Hash8 yelpId ++ "_" ++ base64Hash8 name

/-- JavaScript `x || dflt` on an optional number: `undefined` and `0`
are falsy. -/
def jsNumOr (v : Option ℚ) (dflt : ℚ) : ℚ :=
  match v with
  | none => dflt
  | some x => if x = 0 then dflt else x

/-- JavaScript `s || dflt` on an optional string: `undefined` and `""`
are falsy. -/
def jsStrOr (v : Option String) (dflt : String) : String :=
  match v with
  | none => dflt
  | some s => if s = "" then dflt else s

/-- JavaScript `s || undefined` on an optional string. -/
def jsStrOrUndefined (v : Option String) : Option String :=
  match v with
  | none => none
  | some s => if s = "" then none else some s

/-- Character-list prefix test, for modelling `String.includes`. -/
def charsStartWith : List Char → List Char → Bool
  | [], _ => true
  | _ :: _, [] => false
  | p :: ps, c :: cs => p == c && charsStartWith ps cs

/-- Character-list substring test. -/
def charsContain (pat : List Char) : List Char → Bool
  | [] => charsStartWith pat []
  | c :: cs => charsStartWith pat (c :: cs) || charsContain pat cs

/-- JavaScript `s.includes(pat)`. -/
def strIncludes (s pat : String) : Bool :=
  charsContain pat.toList s.toList

/-- One element of the raw `features` array of a Perplexity record:
either a plain string or an already-shaped feature object. -/
inductive PerplexityFeatureInput where
  | str (s : String)
  | feature (f : RestaurantFeature)
deriving DecidableEq, Repr

/-- One raw restaurant object from the JSON block of a Perplexity
response (every field may be absent). -/
structure PerplexityRestaurantResult where
  name : Option String
  address : Option String
  city : Option String
  state : Option String
  zipCode : Option String
  phone : Option String
  website : Option String
  rating : Option ℚ
  reviewCount : Option ℚ
  priceRange : Option String
  cuisine : Option (List String)
  hours : Option BusinessHours
  features : Option (List PerplexityFeatureInput)
deriving Repr

/-- `PerplexitySearchTool.mapPriceRange`: keyword matching on the
lower-cased price description, defaulting to `MODERATE`. -/
def perplexityMapPriceRange (priceStr : Option String) : PriceRange :=
  match priceStr with
  | none => PriceRange.MODERATE
  | some s =>
    if s = "" then PriceRange.MODERATE
    else
      let lower := strToLower s
      if strIncludes lower "budget" || strIncludes lower "cheap" then
        PriceRange.BUDGET
      else if strIncludes lower "moderate" || strIncludes lower "casual" then
        PriceRange.MODERATE
      else if strIncludes lower "upscale" || strIncludes lower "expensive" then
        PriceRange.EXPENSIVE
      else if strIncludes lower "luxury" || strIncludes lower "high-end" then
        PriceRange.VERY_EXPENSIVE
      else PriceRange.MODERATE

/-- `PerplexitySearchTool.parseFeatures`: a non-array input yields `[]`;
plain strings become boolean features in the `OTHER` category. -/
def perplexityParseFeatures (features : Option (List PerplexityFeatureInput)) :
    List RestaurantFeature :=
  match features with
  | none => []
  | some fs => fs.map (fun f =>
      match f with
      | PerplexityFeatureInput.str s =>
        { name := s, value := FeatureValue.asBool true, category := FeatureCategory.OTHER }
      | PerplexityFeatureInput.feature f => f)

/-- `PerplexitySearchTool.parseRestaurant`; `now` is the `new Date()`
timestamp. -/
def perplexityParseRestaurant (result : PerplexityRestaurantResult) (now : ℕ) :
    Restaurant :=
  { id := perplexityGenerateRestaurantId (jsStrOr result.name "")
      (jsStrOr result.address "")
    name := jsStrOr result.name "Unknown Restaurant"
    address := jsStrOr result.address "Address not available"
    city := jsStrOr result.city ""
    state := jsStrOr result.state ""
    zipCode := jsStrOr result.zipCode ""
    phone := jsStrOrUndefined result.phone
    website := jsStrOrUndefined result.website
    rating := jsNumOr result.rating 4.0
    reviewCount := jsNumOr result.reviewCount 50
    priceRange := perplexityMapPriceRange result.priceRange
    cuisine :=
      match result.cuisine with
      | some l => l
      | none => ["american"]
    coordinates := none
    hours := result.hours
    features := some (perplexityParseFeatures result.features)
    images := none
    source := DataSource.PERPLEXITY
    lastUpdated := now }

/-- One Yelp business category (`{ alias, title }`). -/
structure YelpCategory where
  aliasName : String
  title : String
deriving DecidableEq, Repr

/-- The `location` block of a `YelpBusiness`. -/
structure YelpLocation where
  address1 : String
  city : String
  state : String
  zip_code : String
deriving DecidableEq, Repr

/-- The fields of a `YelpBusiness` that `parseBusiness` reads. -/
structure YelpBusiness where
  id : String
  name : String
  image_url : String
  is_closed : Bool
  url : String
  review_count : ℚ
  categories : List YelpCategory
  rating : ℚ
  coordinates : Coordinates
  transactions : List String
  price : String
  location : YelpLocation
  phone : String
  distance : ℚ
deriving Repr

/-- The cuisine keyword table of
`YelpSearchTool.extractCuisineFromCategories`, in declaration order. -/
def yelpCuisineMapping : List (String × List String) :=
  [("italian", ["italian", "pizza", "pasta"]),
   ("chinese", ["chinese", "cantonese", "szechuan"]),
   ("mexican", ["mexican", "tacos", "tex-mex"]),
   ("japanese", ["japanese", "sushi", "ramen"]),
   ("indian", ["indian", "pakistani"]),
   ("american", ["american", "newamerican", "tradamerican", "burgers", "hotdogs"]),
   ("mediterranean", ["mediterranean", "greek", "lebanese", "turkish"]),
   ("thai", ["thai"]),
   ("french", ["french", "bistros"]),
   ("korean", ["korean"]),
   ("vietnamese", ["vietnamese"]),
   ("spanish", ["spanish", "tapas"]),
   ("caribbean", ["caribbean"]),
   ("soulfood", ["soulfood"]),
   ("bbq", ["bbq"]),
   ("seafood", ["seafood"]),
   ("steakhouse", ["steakhouses"]),
   ("vegetarian", ["vegetarian"]),
   ("vegan", ["vegan"])]

/-- `YelpSearchTool.extractCuisineFromCategories`: collect the mapped
cuisines without repetition, defaulting to `["american"]` when nothing
matches. -/
def extractCuisineFromCategories (categories : List YelpCategory) : List String :=
  let cuisines := categories.foldl (fun cuisines category =>
    yelpCuisineMapping.foldl (fun cuisines entry =>
      if (entry.2.contains category.aliasName ||
          entry.2.contains (strToLower category.title)) &&
         !(cuisines.contains entry.1) then
        cuisines ++ [entry.1]
      else cuisines) cuisines) []
  if 0 < cuisines.length then cuisines else ["american"]

/-- `YelpSearchTool.mapYelpPriceToPriceRange`. -/
def mapYelpPriceToPriceRange (yelpPrice : String) : PriceRange :=
  if yelpPrice = "$" then PriceRange.BUDGET
  else if yelpPrice = "$$" then PriceRange.MODERATE
  else if yelpPrice = "$$$" then PriceRange.EXPENSIVE
  else if yelpPrice = "$$$$" then PriceRange.VERY_EXPENSIVE
  else PriceRange.MODERATE

/-- `YelpSearchTool.mapYelpCoordinates`. -/
def mapYelpCoordinates (coords : Coordinates) : Coordinates :=
  { latitude := coords.latitude, longitude := coords.longitude }

/-- `YelpSearchTool.extractFeaturesFromBusiness`. -/
def extractFeaturesFromBusiness (business : YelpBusiness) : List RestaurantFeature :=
  (if business.transactions.contains "delivery" then
    [{ name := "Delivery", value := FeatureValue.asBool true,
       category := FeatureCategory.DINING }]
   else []) ++
  (if business.transactions.contains "pickup" then
    [{ name := "Takeout", value := FeatureValue.asBool true,
       category := FeatureCategory.DINING }]
   else []) ++
  (if !business.is_closed then
    [{ name := "Currently Open", value := FeatureValue.asBool true,
       category := FeatureCategory.DINING }]
   else []) ++
  (if business.distance ≠ 0 then
    [{ name := "Distance",
       value := FeatureValue.asString
         (toString ((round (business.distance / 1609.34 * 10) : ℚ) / 10) ++ " miles"),
       category := FeatureCategory.OTHER }]
   else [])

/-- `YelpSearchTool.parseBusiness`; `now` is the `new Date()`
timestamp. -/
def yelpParseBusiness (business : YelpBusiness) (now : ℕ) : Restaurant :=
  { id := yelpGenerateRestaurantId business.id business.name
    name := business.name
    address := if business.location.address1 = "" then "Address not available"
      else business.location.address1
    city := business.location.city
    state := business.location.state
    zipCode := business.location.zip_code
    phone := some business.phone
    website := some business.url
    cuisine := extractCuisineFromCategories business.categories
    priceRange := mapYelpPriceToPriceRange business.price
    rating := business.rating
    reviewCount := business.review_count
    coordinates := some (mapYelpCoordinates business.coordinates)
    hours := none
    features := some (extractFeaturesFromBusiness business)
    images := if business.image_url = "" then none else some [business.image_url]
    source := DataSource.YELP
    lastUpdated := now }

/-! ## Analysis of the deduplication map -/

/-- The record kept when two records collide on the dedup key: the newer
one exactly when its information score is strictly higher. -/
def infoPick (a b : Restaurant) : Restaurant :=
  if getRestaurantInfoScore a < getRestaurantInfoScore b then b else a

/-- Fold step combining an optional current survivor with the next
colliding record. -/
def survivorStep (o : Option Restaurant) (r : Restaurant) : Option Restaurant :=
  match o with
  | none => some r
  | some e => some (infoPick e r)

/-- The record that survives out of a collision class, in encounter
order. -/
def classSurvivor (l : List Restaurant) : Option Restaurant :=
  l.foldl survivorStep none

/-- Lookup in the association list modelling the `Map`. -/
def findValue (m : List (String × Restaurant)) (k : String) : Option Restaurant :=
  (m.find? (fun p => p.1 == k)).map Prod.snd

/-- The union, in encounter order, of the restaurant sequences of a list
of search results. -/
def allRestaurants (results : List RestaurantSearchResult) : List Restaurant :=
  results.flatMap (fun result => result.restaurants)

lemma replaceEntry_fst (key : String) (r : Restaurant) (q : String × Restaurant) :
    (if q.1 == key then (key, r) else q).1 = q.1 := by
  split
  · next h => exact (beq_iff_eq.mp h).symm
  · rfl

lemma find?_map_replace (m : List (String × Restaurant)) (key : String)
    (r : Restaurant) (k : String) :
    (m.map (fun q => if q.1 == key then (key, r) else q)).find? (fun p => p.1 == k) =
      (m.find? (fun p => p.1 == k)).map (fun q => if q.1 == key then (key, r) else q) := by
  induction m with
  | nil => rfl
  | cons q t ih =>
    rw [List.map_cons, List.find?_cons, List.find?_cons, replaceEntry_fst]
    cases hk : q.1 == k
    · exact ih
    · rfl

lemma findValue_dedupStep (m : List (String × Restaurant)) (r : Restaurant)
    (k : String) :
    findValue (dedupStep m r) k =
      if k = restaurantKey r then survivorStep (findValue m k) r
      else findValue m k := by
  unfold dedupStep
  cases hfind : m.find? (fun p => p.1 == restaurantKey r) with
  | none =>
    by_cases hk : k = restaurantKey r
    · subst hk
      unfold findValue
      rw [List.find?_append, hfind]
      simp [survivorStep]
    · rw [if_neg hk]
      unfold findValue
      rw [List.find?_append]
      have hnil : List.find? (fun p => p.1 == k) [(restaurantKey r, r)] = none := by
        rw [List.find?_cons]
        have : ((restaurantKey r, r).1 == k) = false := by
          simp only [beq_eq_false_iff_ne]
          exact fun h => hk h.symm
        rw [this]
        rfl
      rw [hnil, Option.or_none]
  | some existing =>
    have hex : (existing.1 == restaurantKey r) = true := by
      simpa using List.find?_some hfind
    dsimp only
    split
    · next hlt =>
      by_cases hk : k = restaurantKey r
      · subst hk
        rw [if_pos rfl]
        unfold findValue
        rw [find?_map_replace, hfind]
        have hfex : (if existing.1 == restaurantKey r then (restaurantKey r, r)
            else existing) = (restaurantKey r, r) := if_pos hex
        simp only [Option.map_map, Function.comp_apply, hfex, Option.map]
        simp [survivorStep, infoPick, hlt]
      · rw [if_neg hk]
        unfold findValue
        rw [find?_map_replace]
        cases hq : m.find? (fun p => p.1 == k) with
        | none => rfl
        | some q =>
          have hqk : q.1 = k := by simpa using List.find?_some hq
          have hfq : (if q.1 == restaurantKey r then (restaurantKey r, r) else q) = q := by
            rw [if_neg]
            simp only [beq_iff_eq, hqk]
            exact hk
          exact congrArg (Option.map Prod.snd) (congrArg some hfq)
    · next hge =>
      by_cases hk : k = restaurantKey r
      · subst hk
        rw [if_pos rfl]
        unfold findValue
        rw [hfind]
        simp [survivorStep, infoPick, hge]
      · rw [if_neg hk]

lemma findValue_foldl (l : List Restaurant) (m : List (String × Restaurant))
    (k : String) :
    findValue (l.foldl dedupStep m) k =
      (l.filter (fun r => restaurantKey r == k)).foldl survivorStep (findValue m k) := by
  induction l generalizing m with
  | nil => rfl
  | cons r t ih =>
    rw [List.foldl_cons, ih, List.filter_cons]
    by_cases hk : (restaurantKey r == k) = true
    · have hk' : k = restaurantKey r := (beq_iff_eq.mp hk).symm
      rw [if_pos hk, List.foldl_cons, findValue_dedupStep, if_pos hk']
    · have hk' : ¬ k = restaurantKey r := fun h => hk (beq_iff_eq.mpr h.symm)
      rw [if_neg hk, findValue_dedupStep, if_neg hk']

/-- The map entries are always keyed by their value's dedup key. -/
def WfEntries (m : List (String × Restaurant)) : Prop :=
  ∀ p ∈ m, p.1 = restaurantKey p.2

lemma wfEntries_dedupStep (m : List (String × Restaurant)) (r : Restaurant)
    (h : WfEntries m) : WfEntries (dedupStep m r) := by
  unfold dedupStep
  cases hfind : m.find? (fun p => p.1 == restaurantKey r) with
  | none =>
    intro p hp
    rcases List.mem_append.mp hp with hp | hp
    · exact h p hp
    · rcases List.mem_singleton.mp hp with rfl
      rfl
  | some existing =>
    dsimp only
    split
    · intro p hp
      rcases List.mem_map.mp hp with ⟨q, hq, rfl⟩
      split
      · rfl
      · exact h q hq
    · exact h

lemma keysNodup_dedupStep (m : List (String × Restaurant)) (r : Restaurant)
    (h : (m.map Prod.fst).Nodup) : ((dedupStep m r).map Prod.fst).Nodup := by
  unfold dedupStep
  cases hfind : m.find? (fun p => p.1 == restaurantKey r) with
  | none =>
    rw [List.map_append]
    rw [List.nodup_append]
    refine ⟨h, List.nodup_singleton _, ?_⟩
    intro a ha hb
    rcases List.mem_map.mp ha with ⟨p, hp, rfl⟩
    rcases List.mem_singleton.mp (by simpa using hb) with h1
    have := List.find?_eq_none.mp hfind p hp
    exact this (by simpa using h1)
  | some existing =>
    dsimp only
    split
    · have hkeys : (m.map (fun q => if q.1 == restaurantKey r
          then (restaurantKey r, r) else q)).map Prod.fst = m.map Prod.fst := by
        rw [List.map_map]
        exact List.map_congr_left (fun q _ => replaceEntry_fst (restaurantKey r) r q)
      rw [hkeys]
      exact h
    · exact h

lemma wfEntries_foldl (l : List Restaurant) (m : List (String × Restaurant))
    (h : WfEntries m) : WfEntries (l.foldl dedupStep m) := by
  induction l generalizing m with
  | nil => exact h
  | cons r t ih => exact ih _ (wfEntries_dedupStep m r h)

lemma keysNodup_foldl (l : List Restaurant) (m : List (String × Restaurant))
    (h : (m.map Prod.fst).Nodup) : ((l.foldl dedupStep m).map Prod.fst).Nodup := by
  induction l generalizing m with
  | nil => exact h
  | cons r t ih => exact ih _ (keysNodup_dedupStep m r h)

/-- In a well-formed, key-unique map, filtering the values by a dedup
key gives exactly the (at most one) entry found at that key. -/
lemma filter_values_eq (m : List (String × Restaurant)) (k : String)
    (hwf : WfEntries m) (hnd : (m.map Prod.fst).Nodup) :
    (m.map Prod.snd).filter (fun r => restaurantKey r == k) = (findValue m k).toList := by
  induction m with
  | nil => rfl
  | cons p t ih =>
    have hp : p.1 = restaurantKey p.2 := hwf p (List.mem_cons_self p t)
    rw [List.map_cons] at hnd
    rcases List.nodup_cons.mp hnd with ⟨hpt, ht⟩
    have hwt : WfEntries t := fun q hq => hwf q (List.mem_cons_of_mem p hq)
    rw [List.map_cons, List.filter_cons]
    by_cases hk : (restaurantKey p.2 == k) = true
    · have hk' : p.1 = k := hp.trans (beq_iff_eq.mp hk)
      rw [if_pos hk]
      have htail : (t.map Prod.snd).filter (fun r => restaurantKey r == k) = [] := by
        rw [List.filter_eq_nil_iff]
        intro a ha
        rcases List.mem_map.mp ha with ⟨q, hq, rfl⟩
        intro hcon
        have hqk : q.1 = k := (hwt q hq).trans (beq_iff_eq.mp hcon)
        refine hpt ?_
        rw [hk', ← hqk]
        exact List.mem_map_of_mem Prod.fst hq
      rw [htail]
      unfold findValue
      rw [@List.find?_cons_of_pos _ (fun q => q.1 == k) p t (beq_iff_eq.mpr hk')]
      rfl
    · have hk' : ¬ (p.1 == k) = true := fun h => hk (beq_iff_eq.mpr (hp.symm.trans
        (beq_iff_eq.mp h)))
      rw [if_neg hk]
      unfold findValue
      rw [@List.find?_cons_of_neg _ (fun q => q.1 == k) p t hk']
      exact ih hwt ht

/-- The nested per-result fold of `combineAndDeduplicateResults` equals
one fold over the flattened union. -/
lemma combine_foldl_flat (results : List RestaurantSearchResult)
    (m : List (String × Restaurant)) :
    results.foldl (fun m result => result.restaurants.foldl dedupStep m) m =
      (allRestaurants results).foldl dedupStep m := by
  induction results generalizing m with
  | nil => rfl
  | cons res rest ih =>
    rw [List.foldl_cons, ih]
    unfold allRestaurants
    rw [List.flatMap_cons, List.foldl_append]

lemma combineAndDeduplicateResults_eq (results : List RestaurantSearchResult) :
    combineAndDeduplicateResults results =
      ((allRestaurants results).foldl dedupStep []).map Prod.snd := by
  unfold combineAndDeduplicateResults
  rw [combine_foldl_flat]

lemma survivorStep_isSome (o : Option Restaurant) (r : Restaurant) :
    (survivorStep o r).isSome := by
  cases o <;> rfl

lemma foldl_survivorStep_some (l : List Restaurant) (e : Restaurant) :
    ∃ s, l.foldl survivorStep (some e) = some s := by
  induction l generalizing e with
  | nil => exact ⟨e, rfl⟩
  | cons r t ih => exact ih (infoPick e r)

lemma classSurvivor_cons (r : Restaurant) (t : List Restaurant) :
    classSurvivor (r :: t) = t.foldl survivorStep (some r) := rfl

lemma mem_dedupStep_snd (m : List (String × Restaurant)) (r : Restaurant)
    (p : String × Restaurant) (hp : p ∈ dedupStep m r) :
    p.2 ∈ m.map Prod.snd ∨ p.2 = r := by
  unfold dedupStep at hp
  cases hfind : m.find? (fun q => q.1 == restaurantKey r) with
  | none =>
    rw [hfind] at hp
    rcases List.mem_append.mp hp with hp | hp
    · exact Or.inl (List.mem_map_of_mem Prod.snd hp)
    · rcases List.mem_singleton.mp hp with rfl
      exact Or.inr rfl
  | some existing =>
    rw [hfind] at hp
    dsimp only at hp
    by_cases hlt : getRestaurantInfoScore existing.2 < getRestaurantInfoScore r
    · rw [if_pos hlt] at hp
      rcases List.mem_map.mp hp with ⟨q, hq, rfl⟩
      split
      · exact Or.inr rfl
      · exact Or.inl (List.mem_map_of_mem Prod.snd hq)
    · rw [if_neg hlt] at hp
      exact Or.inl (List.mem_map_of_mem Prod.snd hp)

lemma foldl_dedup_values_subset (l : List Restaurant)
    (m : List (String × Restaurant)) (p : String × Restaurant)
    (hp : p ∈ l.foldl dedupStep m) : p.2 ∈ m.map Prod.snd ++ l := by
  induction l generalizing m with
  | nil => simpa using List.mem_map_of_mem Prod.snd hp
  | cons r t ih =>
    rw [List.foldl_cons] at hp
    have := ih (dedupStep m r) hp
    rcases List.mem_append.mp this with hv | hv
    · rcases List.mem_map.mp hv with ⟨q, hq, hq2⟩
      rcases mem_dedupStep_snd m r q hq with hv | hv
    -- the value came from the old map, or it is the new record itself
      · exact List.mem_append.mpr (Or.inl (hq2 ▸ hv))
      · refine List.mem_append.mpr (Or.inr ?_)
        rw [← hq2, hv]
        exact List.mem_cons_self r t
    · exact List.mem_append.mpr (Or.inr (List.mem_cons_of_mem r hv))

/-- When no keys collide, deduplication appends every record
unchanged. -/
lemma foldl_dedupStep_of_disjoint (l : List Restaurant) :
    ∀ m : List (String × Restaurant), ((l.map restaurantKey).Nodup) →
      (∀ r ∈ l, ∀ p ∈ m, p.1 ≠ restaurantKey r) →
      l.foldl dedupStep m = m ++ l.map (fun r => (restaurantKey r, r)) := by
  induction l with
  | nil =>
    intro m _ _
    simp
  | cons r t ih =>
    intro m hnd hdisj
    rw [List.map_cons] at hnd
    rcases List.nodup_cons.mp hnd with ⟨hrt, ht⟩
    have hfind : m.find? (fun p => p.1 == restaurantKey r) = none :=
      List.find?_eq_none.mpr (fun p hp => by
        simp only [beq_iff_eq]
        exact hdisj r (List.mem_cons_self r t) p hp)
    have hstep : dedupStep m r = m ++ [(restaurantKey r, r)] := by
      unfold dedupStep
      rw [hfind]
    rw [List.foldl_cons, hstep,
      ih (m ++ [(restaurantKey r, r)]) ht ?_]
    · rw [List.map_cons, List.append_assoc]
      rfl
    · intro s hs p hp
      rcases List.mem_append.mp hp with hp | hp
      · exact hdisj s (List.mem_cons_of_mem r hs) p hp
      · rcases List.mem_singleton.mp hp with rfl
        intro hcon
        refine hrt ?_
        rw [show restaurantKey r = restaurantKey s from hcon]
        exact List.mem_map_of_mem restaurantKey hs

lemma collectToolResults_eq (tm : ToolManager) (params : RestaurantSearchParams)
    (toolNames : List String) :
    collectToolResults tm params toolNames =
      toolNames.filterMap (fun n => (searchWithTool tm n params).toOption) := by
  have key : ∀ (ns : List String) (acc : List RestaurantSearchResult),
      ns.foldl (fun acc toolName =>
        match searchWithTool tm toolName params with
        | Except.ok result => acc ++ [result]
        | Except.error _ => acc) acc =
      acc ++ ns.filterMap (fun n => (searchWithTool tm n params).toOption) := by
    intro ns
    induction ns with
    | nil => intro acc; simp
    | cons n t iht =>
      intro acc
      rw [List.foldl_cons, List.filterMap_cons]
      cases hn : searchWithTool tm n params with
      | ok result =>
        rw [iht]
        simp [Except.toOption, hn]
      | error e =>
        rw [iht]
        simp [Except.toOption, hn]
  simpa using key toolNames []

/-! ## Shared facts about the scoring function -/

lemma calculateRestaurantRanking_score (r : Restaurant) (c : RankingCriteria) :
    (calculateRestaurantRanking r c).score =
      r.rating / 5 * 0.3 + min (r.reviewCount / 100) 1 * 0.2 +
      (match r.priceRange with
        | PriceRange.BUDGET => (1.0 : ℚ)
        | PriceRange.MODERATE => 0.8
        | PriceRange.EXPENSIVE => 0.6
        | PriceRange.VERY_EXPENSIVE => 0.4) * 0.15 +
      (getRestaurantInfoScore r : ℚ) / 6 * 0.2 +
      (if r.source = DataSource.YELP then (1.0 : ℚ) else 0.8) * 0.15 := rfl

lemma infoScore_le_six (r : Restaurant) : getRestaurantInfoScore r ≤ 6 := by
  unfold getRestaurantInfoScore
  split_ifs <;> omega

/-- A fully populated entity: rating 4.5, 150 reviews, `BUDGET` price,
completeness 6, sourced from the most reliable provider. -/
def exampleEntity : Restaurant :=
  { id := "yelp_example", name := "Tonys Pizza", address := "123 Main St",
    city := "San Francisco", state := "CA", zipCode := "94103",
    phone := some "415-555-0100", website := some "https://tonys.example",
    cuisine := ["italian"], priceRange := PriceRange.BUDGET,
    rating := 4.5, reviewCount := 150,
    coordinates := some ⟨37, -122⟩,
    hours := some ⟨some ⟨"09:00", "21:00", false⟩, none, none, none, none, none, none⟩,
    features := some [⟨"Delivery", FeatureValue.asBool true, FeatureCategory.DINING⟩],
    images := some ["https://tonys.example/photo.jpg"],
    source := DataSource.YELP, lastUpdated := 0 }

/-- `exampleEntity` with no reviews. -/
def exampleEntityNoReviews : Restaurant := { exampleEntity with reviewCount := 0 }

/-- `exampleEntity` with 500 reviews (beyond the 100-review cap). -/
def exampleEntityManyReviews : Restaurant := { exampleEntity with reviewCount := 500 }

lemma exampleEntity_infoScore : getRestaurantInfoScore exampleEntity = 6 := by decide

/-- C1: the score computed by the ranking engine is exactly the fixed
weighted formula 0.30·(rating/5) + 0.20·min(reviewCount/100, 1) +
0.15·priceScore + 0.20·(completeness/6) + 0.15·sourceScore; review count
0 gives review sub-score 0 and any review count ≥ 100 gives exactly 1;
the fully populated 4.5-star budget Yelp entity scores exactly 0.97. -/
theorem score_is_weighted_formula (r : Restaurant) (criteria : RankingCriteria) :
    ((calculateRestaurantRanking r criteria).score =
      0.3 * (r.rating / 5) + 0.2 * min (r.reviewCount / 100) 1 +
      0.15 * (match r.priceRange with
        | PriceRange.BUDGET => (1.0 : ℚ)
        | PriceRange.MODERATE => 0.8
        | PriceRange.EXPENSIVE => 0.6
        | PriceRange.VERY_EXPENSIVE => 0.4) +
      0.2 * ((getRestaurantInfoScore r : ℚ) / 6) +
      0.15 * (if r.source = DataSource.YELP then (1.0 : ℚ) else 0.8)) ∧
    (r.reviewCount = 0 → min (r.reviewCount / 100) 1 = 0) ∧
    (100 ≤ r.reviewCount → min (r.reviewCount / 100) 1 = 1) ∧
    (calculateRestaurantRanking exampleEntity noCriteria).score = 0.97 := by
  refine ⟨?_, ?_, ?_, ?_⟩
  · rw [calculateRestaurantRanking_score]
    rcases hpr : r.priceRange <;> by_cases hs : r.source = DataSource.YELP <;>
      simp only [hpr, hs, if_true, if_false] <;> ring
  · intro h
    rw [h]
    norm_num
  · intro h
    have h1 : (1 : ℚ) ≤ r.reviewCount / 100 := by linarith
    simp [min_eq_right h1]
  · rw [calculateRestaurantRanking_score, exampleEntity_infoScore]
    norm_num [exampleEntity]

/-- Closed witness for `score_is_weighted_formula`: both review-count
boundaries evaluated at concrete entities. -/
theorem score_is_weighted_formula_witness :
    min (exampleEntityNoReviews.reviewCount / 100) 1 = 0 ∧
    min (exampleEntityManyReviews.reviewCount / 100) 1 = 1 :=
  ⟨(score_is_weighted_formula exampleEntityNoReviews noCriteria).2.1 rfl,
   (score_is_weighted_formula exampleEntityManyReviews noCriteria).2.2.1 (by decide)⟩

/-- C4: the ranking output is sorted non-increasing by score, two
restaurants identical in all five scored attributes get exactly equal
scores, and the empty input yields the empty output. -/
theorem rank_sorted_and_tie_equal (restaurants : List Restaurant)
    (criteria : RankingCriteria) :
    List.Pairwise (fun a b => b.score ≤ a.score) (rankRestaurants restaurants criteria) ∧
    (∀ r1 r2 : Restaurant, r1.rating = r2.rating →
      r1.reviewCount = r2.reviewCount → r1.priceRange = r2.priceRange →
      getRestaurantInfoScore r1 = getRestaurantInfoScore r2 →
      (r1.source = DataSource.YELP ↔ r2.source = DataSource.YELP) →
      (calculateRestaurantRanking r1 criteria).score =
        (calculateRestaurantRanking r2 criteria).score) ∧
    rankRestaurants [] criteria = [] := by
  refine ⟨?_, ?_, ?_⟩
  · have htrans : ∀ a b c : RestaurantRanking,
        rankingLE a b = true → rankingLE b c = true → rankingLE a c = true := by
      intro a b c hab hbc
      simp only [rankingLE, decide_eq_true_eq] at hab hbc ⊢
      linarith
    have htotal : ∀ a b : RestaurantRanking, (rankingLE a b || rankingLE b a) = true := by
      intro a b
      simp only [rankingLE, Bool.or_eq_true, decide_eq_true_eq]
      exact le_total b.score a.score
    have hs := List.sorted_mergeSort htrans htotal
      (restaurants.map (fun r => calculateRestaurantRanking r criteria))
    exact hs.imp (fun h => by simpa [rankingLE] using h)
  · intro r1 r2 hrat hrev hpr hinfo hsrc
    rw [calculateRestaurantRanking_score, calculateRestaurantRanking_score,
      hrat, hrev, hpr, hinfo]
    by_cases h1 : r1.source = DataSource.YELP
    · rw [if_pos h1, if_pos (hsrc.mp h1)]
    · rw [if_neg h1, if_neg (fun h => h1 (hsrc.mpr h))]
  · simp [rankRestaurants]

/-- Two distinct restaurants agreeing on all five scored attributes. -/
def twinEntityA : Restaurant := { exampleEntity with name := "Twin A" }

/-- The second of the two scoring twins. -/
def twinEntityB : Restaurant :=
  { exampleEntity with name := "Twin B", address := "456 Side St" }

/-- Closed witness for `rank_sorted_and_tie_equal`: the two concrete
twins receive exactly equal scores. -/
theorem rank_sorted_and_tie_equal_witness :
    (calculateRestaurantRanking twinEntityA noCriteria).score =
      (calculateRestaurantRanking twinEntityB noCriteria).score :=
  (rank_sorted_and_tie_equal [] noCriteria).2.1 twinEntityA twinEntityB
    rfl rfl rfl (by decide) Iff.rfl

/-- C5: under the entity invariant (rating in [1,5], non-negative review
count) the total score lies in [0,1] and every factor sub-score carried
in the ranking breakdown lies in [0,1]. -/
theorem score_bounds (r : Restaurant) (criteria : RankingCriteria)
    (hr1 : 1 ≤ r.rating) (hr5 : r.rating ≤ 5) (hrev : 0 ≤ r.reviewCount) :
    (0 ≤ (calculateRestaurantRanking r criteria).score ∧
      (calculateRestaurantRanking r criteria).score ≤ 1) ∧
    ∀ f ∈ (calculateRestaurantRanking r criteria).factors,
      0 ≤ f.score ∧ f.score ≤ 1 := by
  have hrat0 : (0 : ℚ) ≤ r.rating / 5 := by linarith
  have hrat1 : r.rating / 5 ≤ 1 := by linarith
  have hrev0 : (0 : ℚ) ≤ min (r.reviewCount / 100) 1 :=
    le_min (by positivity) zero_le_one
  have hrev1 : min (r.reviewCount / 100) 1 ≤ 1 := min_le_right _ _
  have hinfo0 : (0 : ℚ) ≤ (getRestaurantInfoScore r : ℚ) / 6 := by positivity
  have hinfo1 : (getRestaurantInfoScore r : ℚ) / 6 ≤ 1 := by
    have h6 : (getRestaurantInfoScore r : ℚ) ≤ 6 := by
      exact_mod_cast infoScore_le_six r
    linarith
  constructor
  · rw [calculateRestaurantRanking_score]
    rcases hpr : r.priceRange <;> by_cases hs : r.source = DataSource.YELP <;>
      simp only [hpr, hs, if_true, if_false] <;> constructor <;> norm_num <;> linarith
  · intro f hf
    simp only [calculateRestaurantRanking, List.mem_cons, List.not_mem_nil,
      or_false] at hf
    rcases hf with rfl | rfl | rfl | rfl | rfl
    · exact ⟨hrat0, hrat1⟩
    · exact ⟨hrev0, hrev1⟩
    · constructor <;> (rcases hpr : r.priceRange <;> simp only [hpr] <;> norm_num)
    · exact ⟨hinfo0, hinfo1⟩
    · constructor <;> (by_cases hs : r.source = DataSource.YELP <;>
        simp only [hs, if_true, if_false] <;> norm_num)

/-- Closed witness for `score_bounds` at the fully populated entity. -/
theorem score_bounds_witness :
    0 ≤ (calculateRestaurantRanking exampleEntity noCriteria).score ∧
    (calculateRestaurantRanking exampleEntity noCriteria).score ≤ 1 :=
  (score_bounds exampleEntity noCriteria (by norm_num [exampleEntity])
    (by norm_num [exampleEntity]) (by norm_num [exampleEntity])).1

/-- C8: ranking is a pure, deterministic function of its input: repeated
invocations agree, and the output is the fixed closed form determined by
the input list and criteria alone. -/
theorem rank_deterministic (restaurants : List Restaurant)
    (criteria : RankingCriteria) :
    rankRestaurants restaurants criteria = rankRestaurants restaurants criteria ∧
    rankRestaurants restaurants criteria =
      (restaurants.map (fun r => calculateRestaurantRanking r criteria)).mergeSort
        rankingLE :=
  ⟨rfl, rfl⟩

/-- C9: ranking returns exactly one ranking per input entity — same
length, and the carried restaurants are a permutation of the input — and
the criteria argument never changes the output. -/
theorem rank_preserves_entities (restaurants : List Restaurant)
    (c c' : RankingCriteria) :
    (rankRestaurants restaurants c).length = restaurants.length ∧
    ((rankRestaurants restaurants c).map (fun rk => rk.restaurant)).Perm restaurants ∧
    rankRestaurants restaurants c = rankRestaurants restaurants c' := by
  have hperm : (rankRestaurants restaurants c).Perm
      (restaurants.map (fun r => calculateRestaurantRanking r c)) :=
    List.mergeSort_perm _ _
  have hmap : ((rankRestaurants restaurants c).map (fun rk => rk.restaurant)).Perm
      restaurants := by
    have h1 := hperm.map (fun rk => rk.restaurant)
    rw [List.map_map] at h1
    have h2 : restaurants.map
        ((fun rk : RestaurantRanking => rk.restaurant) ∘
          (fun r => calculateRestaurantRanking r c)) = restaurants := by
      rw [show ((fun rk : RestaurantRanking => rk.restaurant) ∘
        (fun r => calculateRestaurantRanking r c)) = id from funext fun r => rfl]
      exact List.map_id restaurants
    rw [h2] at h1
    exact h1
  exact ⟨hperm.length_eq.trans (List.length_map _ _), hmap, rfl⟩

/-! ## Deduplication claims -/

lemma getRestaurantInfoScore_countP (r : Restaurant) :
    getRestaurantInfoScore r =
      ([optStrTruthy r.phone, optStrTruthy r.website, r.coordinates.isSome,
        r.hours.isSome, optListNonempty r.features,
        optListNonempty r.images].countP id) := by
  unfold getRestaurantInfoScore
  simp only [List.countP_cons, List.countP_nil, id]
  split_ifs <;> omega

set_option linter.unusedVariables false in
/-- C2: two input records with equal lower-cased name and address leave
exactly one survivor in the deduplicated output; when they are the only
records of their collision class, the survivor is the strictly more
complete one (the first-encountered on a tie); completeness counts the
six present / non-empty fields. -/
theorem dedup_unique_survivor (results : List RestaurantSearchResult)
    (r1 r2 : Restaurant)
    (h1 : r1 ∈ allRestaurants results) (h2 : r2 ∈ allRestaurants results)
    (hname : strToLower r1.name = strToLower r2.name)
    (haddr : strToLower r1.address = strToLower r2.address) :
    ((combineAndDeduplicateResults results).filter
        (fun r => restaurantKey r == restaurantKey r1)).length = 1 ∧
    ((allRestaurants results).filter
          (fun r => restaurantKey r == restaurantKey r1) = [r1, r2] →
      (combineAndDeduplicateResults results).filter
          (fun r => restaurantKey r == restaurantKey r1) =
        [if getRestaurantInfoScore r1 < getRestaurantInfoScore r2 then r2 else r1]) ∧
    (∀ r : Restaurant, getRestaurantInfoScore r =
        ([optStrTruthy r.phone, optStrTruthy r.website, r.coordinates.isSome,
          r.hours.isSome, optListNonempty r.features,
          optListNonempty r.images].countP id) ∧
      getRestaurantInfoScore r ≤ 6) := by
  have hwf : WfEntries ((allRestaurants results).foldl dedupStep []) :=
    wfEntries_foldl _ [] (fun p hp => absurd hp (List.not_mem_nil p))
  have hnd : (((allRestaurants results).foldl dedupStep []).map Prod.fst).Nodup :=
    keysNodup_foldl _ [] List.nodup_nil
  have hfilter : (combineAndDeduplicateResults results).filter
      (fun r => restaurantKey r == restaurantKey r1) =
      (findValue ((allRestaurants results).foldl dedupStep []) (restaurantKey r1)).toList := by
    rw [combineAndDeduplicateResults_eq]
    exact filter_values_eq _ _ hwf hnd
  have hfind : findValue ((allRestaurants results).foldl dedupStep []) (restaurantKey r1) =
      ((allRestaurants results).filter
        (fun r => restaurantKey r == restaurantKey r1)).foldl survivorStep none :=
    findValue_foldl (allRestaurants results) [] (restaurantKey r1)
  refine ⟨?_, ?_, ?_⟩
  · rw [hfilter, hfind]
    have hmem : r1 ∈ (allRestaurants results).filter
        (fun r => restaurantKey r == restaurantKey r1) :=
      List.mem_filter.mpr ⟨h1, beq_iff_eq.mpr rfl⟩
    cases hcls : (allRestaurants results).filter
        (fun r => restaurantKey r == restaurantKey r1) with
    | nil => rw [hcls] at hmem; cases hmem
    | cons hd tl =>
      rw [List.foldl_cons]
      rcases foldl_survivorStep_some tl hd with ⟨sv, hsv⟩
      rw [show survivorStep none hd = some hd from rfl, hsv]
      rfl
  · intro hcls
    rw [hfilter, hfind, hcls]
    rfl
  · intro r
    exact ⟨getRestaurantInfoScore_countP r, infoScore_le_six r⟩

/-- Search parameters used by the concrete aggregation scenarios. -/
def paramsEx : RestaurantSearchParams :=
  ⟨"pizza", "San Francisco", none, none, none, none, none, none⟩

/-- A sparse record for the duplicate pair: completeness 1 (phone only). -/
def duplicateEntityA : Restaurant :=
  { id := "perplexity_a", name := "Tonys Pizza", address := "123 Main St",
    city := "", state := "", zipCode := "",
    phone := some "415-555-0100", website := none, cuisine := ["italian"],
    priceRange := PriceRange.MODERATE, rating := 4, reviewCount := 50,
    coordinates := none, hours := none, features := some [], images := none,
    source := DataSource.PERPLEXITY, lastUpdated := 0 }

/-- The same restaurant from another provider, differently cased, with
completeness 3 (phone, website, coordinates). -/
def duplicateEntityB : Restaurant :=
  { id := "yelp_b", name := "TONYS PIZZA", address := "123 MAIN ST",
    city := "San Francisco", state := "CA", zipCode := "94103",
    phone := some "415-555-0100", website := some "https://tonys.example",
    cuisine := ["italian"], priceRange := PriceRange.MODERATE,
    rating := 4, reviewCount := 120,
    coordinates := some ⟨37, -122⟩, hours := none, features := some [],
    images := none, source := DataSource.YELP, lastUpdated := 0 }

/-- Two single-restaurant provider results carrying the duplicate pair. -/
def resultsEx : List RestaurantSearchResult :=
  [⟨[duplicateEntityA], 1, paramsEx, 5⟩, ⟨[duplicateEntityB], 1, paramsEx, 6⟩]

/-- Closed witness for `dedup_unique_survivor`: the concrete duplicate
pair leaves exactly the more complete record. -/
theorem dedup_unique_survivor_witness :
    ((combineAndDeduplicateResults resultsEx).filter
        (fun r => restaurantKey r == restaurantKey duplicateEntityA)).length = 1 ∧
    (combineAndDeduplicateResults resultsEx).filter
        (fun r => restaurantKey r == restaurantKey duplicateEntityA) =
      [duplicateEntityB] := by
  have h := dedup_unique_survivor resultsEx duplicateEntityA duplicateEntityB
    (by decide) (by decide) (by decide) (by decide)
  refine ⟨h.1, ?_⟩
  rw [h.2.1 (by decide)]
  rw [if_pos (by decide)]

/-! ## Aggregator claims -/

/-- C3: the multi-tool search never raises: when every adapter fails it
still returns a well-formed empty result with the elapsed timing, and
when one adapter fails while another succeeds the output is exactly the
succeeding adapter's (internally duplicate-free) result list. -/
theorem aggregation_never_raises (tm : ToolManager)
    (params : RestaurantSearchParams) (elapsed : ℕ) :
    (∀ toolNames : List String,
      (∀ n ∈ toolNames, ∃ e, searchWithTool tm n params = Except.error e) →
      (searchWithMultipleTools tm toolNames params elapsed).restaurants = [] ∧
      (searchWithMultipleTools tm toolNames params elapsed).totalResults = 0 ∧
      (searchWithMultipleTools tm toolNames params elapsed).searchTime = elapsed ∧
      (searchWithMultipleTools tm toolNames params elapsed).searchParams = params) ∧
    (∀ (a b : String) (ea : SearchError) (rb : RestaurantSearchResult),
      searchWithTool tm a params = Except.error ea →
      searchWithTool tm b params = Except.ok rb →
      (rb.restaurants.map restaurantKey).Nodup →
      (searchWithMultipleTools tm [a, b] params elapsed).restaurants =
        rb.restaurants) := by
  constructor
  · intro toolNames hfail
    have hcollect : collectToolResults tm params toolNames = [] := by
      rw [collectToolResults_eq]
      rw [List.filterMap_eq_nil_iff]
      intro n hn
      rcases hfail n hn with ⟨e, he⟩
      rw [he]
      rfl
    have hres : (searchWithMultipleTools tm toolNames params elapsed).restaurants = [] := by
      show combineAndDeduplicateResults (collectToolResults tm params toolNames) = []
      rw [hcollect]
      rfl
    have htot : (searchWithMultipleTools tm toolNames params elapsed).totalResults = 0 := by
      show (combineAndDeduplicateResults (collectToolResults tm params toolNames)).length = 0
      rw [hcollect]
      rfl
    exact ⟨hres, htot, rfl, rfl⟩
  · intro a b ea rb ha hb hnd
    have hcollect : collectToolResults tm params [a, b] = [rb] := by
      rw [collectToolResults_eq]
      simp [ha, hb, Except.toOption]
    show combineAndDeduplicateResults (collectToolResults tm params [a, b]) =
      rb.restaurants
    rw [hcollect, combineAndDeduplicateResults_eq]
    have hall : allRestaurants [rb] = rb.restaurants := by
      simp [allRestaurants]
    rw [hall, foldl_dedupStep_of_disjoint rb.restaurants [] hnd
      (fun r _ p hp => absurd hp (List.not_mem_nil p))]
    simp only [List.nil_append, List.map_map]
    exact (List.map_congr_left (fun r _ => rfl)).trans (List.map_id _)

/-- An adapter that always fails, standing in for a provider outage. -/
def failingAdapter : SearchAdapter := fun _ => Except.error "network error"

/-- Minimal record constructor for the concrete aggregation scenario. -/
def plainRestaurant (nm addr : String) : Restaurant :=
  { id := nm, name := nm, address := addr, city := "", state := "",
    zipCode := "", phone := none, website := none, cuisine := ["american"],
    priceRange := PriceRange.MODERATE, rating := 4, reviewCount := 50,
    coordinates := none, hours := none, features := some [], images := none,
    source := DataSource.YELP, lastUpdated := 0 }

/-- The fixed successful result of the concrete scenario: three distinct
restaurants. -/
def okResult : RestaurantSearchResult :=
  ⟨[plainRestaurant "Alpha" "1 First St", plainRestaurant "Bravo" "2 Second St",
    plainRestaurant "Charlie" "3 Third St"], 3, paramsEx, 42⟩

/-- An adapter that always succeeds with `okResult`. -/
def okAdapter : SearchAdapter := fun _ => Except.ok okResult

/-- A registry with one failing and one succeeding adapter. -/
def tmEx : ToolManager := ⟨[("A", failingAdapter), ("B", okAdapter)]⟩

/-- Closed witness for `aggregation_never_raises`: with adapter A down,
the aggregate is exactly adapter B's three results. -/
theorem aggregation_never_raises_witness :
    (searchWithMultipleTools tmEx ["A", "B"] paramsEx 7).restaurants =
      okResult.restaurants :=
  (aggregation_never_raises tmEx paramsEx 7).2 "A" "B"
    (SearchError.providerFailure "network error") okResult rfl rfl (by decide)

/-- C7: `searchWithTool` yields the unknown-provider error exactly when
the requested name is unregistered; a registered name delegates to that
adapter and returns its result. -/
theorem unknown_provider_iff (tm : ToolManager) (toolName : String)
    (params : RestaurantSearchParams) :
    ((∃ available, searchWithTool tm toolName params =
        Except.error (SearchError.unknownProvider toolName available)) ↔
      toolName ∉ getAvailableTools tm) ∧
    (∀ pr : String × SearchAdapter,
      tm.tools.find? (fun p => p.1 == toolName) = some pr →
      searchWithTool tm toolName params =
        (pr.2 params).mapError SearchError.providerFailure ∧
      ∀ res, pr.2 params = Except.ok res →
        searchWithTool tm toolName params = Except.ok res) := by
  constructor
  · cases hfind : tm.tools.find? (fun p => p.1 == toolName) with
    | none =>
      constructor
      · intro _ hmem
        rcases List.mem_map.mp hmem with ⟨p, hp, hkey⟩
        exact List.find?_eq_none.mp hfind p hp (beq_iff_eq.mpr hkey)
      · intro _
        refine ⟨getAvailableTools tm, ?_⟩
        unfold searchWithTool
        rw [hfind]
    | some pr =>
      have hpr1 : pr.1 = toolName := by simpa using List.find?_some hfind
      have hmem : toolName ∈ getAvailableTools tm := by
        unfold getAvailableTools
        rw [← hpr1]
        exact List.mem_map_of_mem Prod.fst (List.mem_of_find?_eq_some hfind)
      have hdeleg : searchWithTool tm toolName params =
          (pr.2 params).mapError SearchError.providerFailure := by
        unfold searchWithTool
        rw [hfind]
      constructor
      · rintro ⟨avail, havail⟩
        rw [hdeleg] at havail
        cases hres : pr.2 params with
        | ok v =>
          rw [hres] at havail
          exact absurd havail (by simp [Except.mapError])
        | error e =>
          rw [hres] at havail
          simp [Except.mapError] at havail
      · intro hno
        exact absurd hmem hno
  · intro pr hfind2
    have hdeleg : searchWithTool tm toolName params =
        (pr.2 params).mapError SearchError.providerFailure := by
      unfold searchWithTool
      rw [hfind2]
    refine ⟨hdeleg, ?_⟩
    intro res hres
    rw [hdeleg, hres]
    rfl

/-- Closed witness for `unknown_provider_iff`: the unregistered name is
rejected, the registered name returns its adapter's result. -/
theorem unknown_provider_iff_witness :
    "C" ∉ getAvailableTools tmEx ∧
    searchWithTool tmEx "B" paramsEx = Except.ok okResult :=
  ⟨(unknown_provider_iff tmEx "C" paramsEx).1.mp ⟨["A", "B"], rfl⟩,
   ((unknown_provider_iff tmEx "B" paramsEx).2 ("B", okAdapter) rfl).2 okResult rfl⟩

/-- C10: every restaurant in the aggregated output is, field for field,
one whole record returned by some successfully queried adapter of that
invocation — nothing is fabricated or merged. -/
theorem output_only_adapter_records (tm : ToolManager) (toolNames : List String)
    (params : RestaurantSearchParams) (elapsed : ℕ) (r : Restaurant)
    (hr : r ∈ (searchWithMultipleTools tm toolNames params elapsed).restaurants) :
    ∃ n ∈ toolNames, ∃ res, searchWithTool tm n params = Except.ok res ∧
      r ∈ res.restaurants := by
  have hr2 : r ∈ combineAndDeduplicateResults (collectToolResults tm params toolNames) :=
    hr
  rw [combineAndDeduplicateResults_eq] at hr2
  rcases List.mem_map.mp hr2 with ⟨p, hp, hp2⟩
  have hsub := foldl_dedup_values_subset
    (allRestaurants (collectToolResults tm params toolNames)) [] p hp
  rw [hp2] at hsub
  have hall : r ∈ allRestaurants (collectToolResults tm params toolNames) := by
    simpa using hsub
  rcases List.mem_flatMap.mp hall with ⟨res, hres, hrres⟩
  rw [collectToolResults_eq] at hres
  rcases List.mem_filterMap.mp hres with ⟨n, hn, hopt⟩
  refine ⟨n, hn, res, ?_, hrres⟩
  cases hcall : searchWithTool tm n params with
  | ok v =>
    rw [hcall] at hopt
    cases hopt
    rfl
  | error e =>
    rw [hcall] at hopt
    cases hopt

/-- Closed witness for `output_only_adapter_records` at the concrete
two-adapter scenario. -/
theorem output_only_adapter_records_witness :
    ∃ n ∈ ["A", "B"], ∃ res, searchWithTool tmEx n paramsEx = Except.ok res ∧
      plainRestaurant "Alpha" "1 First St" ∈ res.restaurants :=
  output_only_adapter_records tmEx ["A", "B"] paramsEx 7
    (plainRestaurant "Alpha" "1 First St") (by decide)

/-! ## Adapter parsing claims -/

lemma priceRange_cases (pr : PriceRange) :
    pr = PriceRange.BUDGET ∨ pr = PriceRange.MODERATE ∨
    pr = PriceRange.EXPENSIVE ∨ pr = PriceRange.VERY_EXPENSIVE := by
  cases pr
  · exact Or.inl rfl
  · exact Or.inr (Or.inl rfl)
  · exact Or.inr (Or.inr (Or.inl rfl))
  · exact Or.inr (Or.inr (Or.inr rfl))

lemma cuisine_default_nonempty (l : List String) :
    (if 0 < l.length then l else ["american"]) ≠ [] := by
  split
  · next h => exact List.ne_nil_of_length_pos h
  · simp

/-- A raw Perplexity record whose reported rating exceeds the 1-5
scale. -/
def overratedInput : PerplexityRestaurantResult :=
  { name := some "Sky Diner", address := some "1 High St", city := none,
    state := none, zipCode := none, phone := none, website := none,
    rating := some 7, reviewCount := some 10,
    priceRange := some "budget-friendly", cuisine := none, hours := none,
    features := none }

/-- C6 counterexample: the Perplexity parser does not clamp the rating —
a source rating of 7 is stored verbatim, outside [1,5]. -/
theorem rating_not_clamped_counterexample :
    (perplexityParseRestaurant overratedInput 0).rating = 7 ∧
    ¬ (1 ≤ (perplexityParseRestaurant overratedInput 0).rating ∧
        (perplexityParseRestaurant overratedInput 0).rating ≤ 5) := by
  have h : (perplexityParseRestaurant overratedInput 0).rating = 7 := by decide
  refine ⟨h, ?_⟩
  rw [h]
  rintro ⟨-, h5⟩
  norm_num at h5

/-- C6 amended: both parsers always produce a price-tier among the four
defined symbols and non-null cuisine / feature collections, but neither
clamps the rating: the Perplexity parser stores the source value (4.0
only when it is absent or zero) and the Yelp parser copies
`business.rating` verbatim. -/
theorem parse_invariants_amended (inp : PerplexityRestaurantResult)
    (business : YelpBusiness) (now : ℕ) :
    ((perplexityParseRestaurant inp now).rating =
      (match inp.rating with
        | none => (4.0 : ℚ)
        | some x => if x = 0 then 4.0 else x)) ∧
    ((perplexityParseRestaurant inp now).priceRange = PriceRange.BUDGET ∨
      (perplexityParseRestaurant inp now).priceRange = PriceRange.MODERATE ∨
      (perplexityParseRestaurant inp now).priceRange = PriceRange.EXPENSIVE ∨
      (perplexityParseRestaurant inp now).priceRange = PriceRange.VERY_EXPENSIVE) ∧
    ((perplexityParseRestaurant inp now).cuisine =
      (match inp.cuisine with
        | some l => l
        | none => ["american"])) ∧
    ((perplexityParseRestaurant inp now).features ≠ none) ∧
    ((yelpParseBusiness business now).rating = business.rating) ∧
    ((yelpParseBusiness business now).priceRange = PriceRange.BUDGET ∨
      (yelpParseBusiness business now).priceRange = PriceRange.MODERATE ∨
      (yelpParseBusiness business now).priceRange = PriceRange.EXPENSIVE ∨
      (yelpParseBusiness business now).priceRange = PriceRange.VERY_EXPENSIVE) ∧
    ((yelpParseBusiness business now).cuisine ≠ []) ∧
    ((yelpParseBusiness business now).features ≠ none) := by
  refine ⟨rfl, priceRange_cases _, rfl, ?_, rfl, priceRange_cases _, ?_, ?_⟩
  · show some (perplexityParseFeatures inp.features) ≠ none
    simp
  · show extractCuisineFromCategories business.categories ≠ []
    exact cuisine_default_nonempty _
  · show some (extractFeaturesFromBusiness business) ≠ none
    simp

end FoodFinder
